import Mathlib

/-!
Verification of the block-registry / ticket-normalizer / search-bar front-end.

Shallow embedding of the logic-bearing code of the repository:

* `transformTickets` and its field normalizers (docs/README.md);
* `renderBlocks` and the component registry (src/renderBlocks.tsx, src/registry.ts);
* the `TicketList` filter/sort memo (src/components/TicketList.tsx);
* the `CardList` sorted rendering (unnamed CardListBase source);
* the `SearchBar` / `useDebounce` hook pair (src/components/SearchBar.tsx),
  modelled as a discrete-event machine over the React render/effect semantics.

JavaScript numbers are modelled as rationals extended with NaN and the two
infinities; the shortest-round-trip decimal formatting JS uses for non-integer
numbers is abstracted (only integer-valued numbers are printed exactly, which
is the only case the claims exercise).
-/

/-- A JavaScript number: a finite value (modelled as an exact rational),
one of the two infinities, or NaN. -/
inductive JSNum where
  | fin (q : ℚ)
  | inf
  | ninf
  | nan
deriving DecidableEq

/-- A JavaScript runtime value, as far as the normalizer can observe one:
`null`, `undefined`, booleans, numbers, strings, plain objects
(association lists of fields) and arrays. -/
inductive JSVal where
  | null
  | undefined
  | bool (b : Bool)
  | num (n : JSNum)
  | str (s : String)
  | obj (fields : List (String × JSVal))
  | arr (elems : List JSVal)

/-- JS `typeof v === "object"` (true for objects, arrays and `null`). -/
def jsTypeofIsObject : JSVal → Bool
  | .null => true
  | .obj _ => true
  | .arr _ => true
  | _ => false

/-- Strict equality `v === null`. -/
def jsIsNull : JSVal → Bool
  | .null => true
  | _ => false

/-- Strict equality `v === undefined`. -/
def jsIsUndefined : JSVal → Bool
  | .undefined => true
  | _ => false

/-- The `in` operator restricted to the string keys this code consults:
a named property exists only on plain objects in this model. -/
def jsHasProp (v : JSVal) (k : String) : Bool :=
  match v with
  | .obj fields => (fields.lookup k).isSome
  | _ => false

/-- Property access `v[k]`: a missing property reads as `undefined`. -/
def jsGetField (v : JSVal) (k : String) : JSVal :=
  match v with
  | .obj fields => (fields.lookup k).getD .undefined
  | _ => .undefined

/-- Decimal rendering of a JS number. Integer values are rendered exactly as
JS does; the shortest-round-trip formatting of non-integer doubles is
abstracted by a numerator/denominator rendering (no claim depends on it). -/
def ratDecimalString (q : ℚ) : String :=
  if q.den = 1 then toString q.num else toString q.num ++ "/" ++ toString q.den

/-- JS `String(n)` on a number. -/
def jsNumToString : JSNum → String
  | .fin q => ratDecimalString q
  | .inf => "Infinity"
  | .ninf => "-Infinity"
  | .nan => "NaN"

mutual

/-- JS `String(v)`: ToString on the values this model covers. -/
def jsString : JSVal → String
  | .null => "null"
  | .undefined => "undefined"
  | .bool true => "true"
  | .bool false => "false"
  | .num n => jsNumToString n
  | .str s => s
  | .obj _ => "[object Object]"
  | .arr es => String.intercalate "," (jsStringList es)

/-- Array elements under ToString: `null`/`undefined` render as the empty
string inside a joined array, per `Array.prototype.join`. -/
def jsStringList : List JSVal → List String
  | [] => []
  | e :: es =>
      (match e with
       | .null => ""
       | .undefined => ""
       | e => jsString e) :: jsStringList es

end

/-- JS `s.trim()`: strip leading and trailing whitespace. -/
def jsTrim (s : String) : String :=
  ⟨(((s.toList.dropWhile Char.isWhitespace).reverse.dropWhile Char.isWhitespace).reverse)⟩

/-- JS `isNaN(n)` after a `typeof n === "number"` guard. -/
def jsNumIsNaN : JSNum → Bool
  | .nan => true
  | _ => false

/-- Division of a JS number by 100 (`price_cents / 100`): exact on finite
values, absorbing on the infinities and NaN. -/
def jsNumDiv100 : JSNum → JSNum
  | .fin q => .fin (q / 100)
  | .inf => .inf
  | .ninf => .ninf
  | .nan => .nan

/-- The normalized ticket record (src/types.ts `Ticket`); the `currency`
field is kept as the runtime string the code produces. -/
structure Ticket where
  id : String
  title : String
  price : JSNum
  currency : String
deriving DecidableEq

/-- The function `normalizeTitle` from docs/README.md: non-strings and blank strings
become `"Untitled"`, every other string is kept verbatim. -/
def normalizeTitle (title : JSVal) : String :=
  match title with
  | .str s => if jsTrim s = "" then "Untitled" else s
  | _ => "Untitled"

/-- The function `normalizeCurrency` from docs/README.md: keep one of the three
recognized codes, otherwise `"USD"`. -/
def normalizeCurrency (currency : JSVal) : String :=
  match currency with
  | .str s => if s = "USD" ∨ s = "EUR" ∨ s = "GBP" then s else "USD"
  | _ => "USD"

/-- The function `normalizePrice` from docs/README.md:
`typeof price_cents === "number" && !isNaN(price_cents)` divides by 100,
anything else yields 0. -/
def normalizePrice (price_cents : JSVal) : JSNum :=
  match price_cents with
  | .num n => if jsNumIsNaN n then .fin 0 else jsNumDiv100 n
  | _ => .fin 0

/-- The filter predicate of `transformTickets`:
`typeof item === "object" && item !== null && "id" in item &&
item.id !== null && item.id !== undefined`. -/
def ticketKeep (item : JSVal) : Bool :=
  jsTypeofIsObject item && !(jsIsNull item) && jsHasProp item "id"
    && !(jsIsNull (jsGetField item "id")) && !(jsIsUndefined (jsGetField item "id"))

/-- The map step of `transformTickets`. -/
def rawToTicket (item : JSVal) : Ticket :=
  { id := jsString (jsGetField item "id")
    title := normalizeTitle (jsGetField item "title")
    price := normalizePrice (jsGetField item "price_cents")
    currency := normalizeCurrency (jsGetField item "currency") }

/-- The function `transformTickets` from docs/README.md: non-arrays yield `[]`, otherwise
filter then map. -/
def transformTickets (input : JSVal) : List Ticket :=
  match input with
  | .arr elems => (elems.filter ticketKeep).map rawToTicket
  | _ => []

/-! ## Block registry and renderer (src/types.ts, src/registry.ts, src/renderBlocks.tsx) -/

/-- One entry of the `items` prop of a `CardList` block. -/
structure CardItem where
  title : String
  price : Option ℚ
  href : Option String
deriving DecidableEq

/-- The `props` payload of a block. The three registered shapes follow
src/types.ts; `raw` stands for the arbitrary payload an unregistered tag may
carry (the runtime does not inspect it). -/
inductive PropsVal where
  | hero (title : String) (subtitle : Option String)
  | cardList (items : List CardItem)
  | cta (label : String) (href : String) (secondary : Bool)
  | raw

/-- A block record: a `type` tag (any runtime string) and its `props`. -/
structure Block where
  type : String
  props : PropsVal

/-- The three registered components (src/registry.ts). -/
inductive Component where
  | Hero
  | CardList
  | CTA
deriving DecidableEq

/-- The static registry object: tag string to component (the own
properties of the object literal). -/
def registry : List (String × Component) :=
  [("Hero", .Hero), ("CardList", .CardList), ("CTA", .CTA)]

/-- The string-keyed properties every plain object literal inherits from
`Object.prototype` (including the Annex B accessors): reading one of these
names off the registry yields a truthy function or object, not
`undefined`. -/
def objectProtoProps : List String :=
  ["constructor", "hasOwnProperty", "isPrototypeOf", "propertyIsEnumerable",
   "toLocaleString", "toString", "valueOf", "__proto__", "__defineGetter__",
   "__defineSetter__", "__lookupGetter__", "__lookupSetter__"]

/-- The result of the JS property read `registry[tag]`: a registered
component (an own property), a truthy member inherited from
`Object.prototype`, or `undefined` — the only falsy outcome. -/
inductive JSPropResult where
  | comp (c : Component)
  | inherited (member : String)
  | undefined

/-- The helper `getComponentAndProps` (src/registry.ts): the JS property
access `registry[block.type]` consults the prototype chain, so a tag
naming an `Object.prototype` member reads back a truthy inherited value;
only the remaining unregistered tags read back `undefined`. -/
def getComponentAndProps (block : Block) : JSPropResult × PropsVal :=
  (match registry.lookup block.type with
   | some c => .comp c
   | none =>
       if block.type ∈ objectProtoProps then .inherited block.type
       else .undefined,
   block.props)

/-- A renderable output node: an invoked registered component (with its
React key and props), the component branch taken with a truthy member
inherited from `Object.prototype` standing in as `Comp` (the `!Comp` test
is false for it), or the unknown-tag placeholder `div` with its `role`
attribute and text content. -/
inductive RNode where
  | component (key : String) (comp : Component) (props : PropsVal)
  | protoComp (key : String) (member : String) (props : PropsVal)
  | element (key : String) (role : Option String) (text : String)

/-- The body of the `blocks.map((block, idx) => ...)` callback in
src/renderBlocks.tsx; `if (!Comp)` takes the placeholder branch only when
the property read produced `undefined`, since inherited members are
truthy. -/
def renderBlock (block : Block) (idx : Nat) : RNode :=
  match getComponentAndProps block with
  | (.comp c, props) => .component (block.type ++ "-" ++ toString idx) c props
  | (.inherited member, props) =>
      .protoComp (block.type ++ "-" ++ toString idx) member props
  | (.undefined, _) =>
      .element ("unknown-" ++ toString idx) (some "note")
        ("Unknown block: " ++ block.type)

/-- The function `renderBlocks` (src/renderBlocks.tsx): index-aware map over the input. -/
def renderBlocks (blocks : List Block) : List RNode :=
  blocks.mapIdx (fun idx block => renderBlock block idx)

/-! ## Mutable-array store

JS arrays are heap objects; `filter` and `slice`/spread allocate fresh ones
while `sort` mutates its receiver in place. A store of array contents indexed
by allocation order makes those identities explicit, so that the
"input array is left unchanged" claims are about the same object the source
code holds, not about values. -/

/-- The heap of arrays of element type `α`, indexed by allocation order. -/
abbrev Store (α : Type) : Type := List (List α)

/-- Read the contents of an array (a dangling reference reads as empty). -/
def Store.read (σ : Store α) (r : Nat) : List α := σ.getD r []

/-- Number of allocated arrays. -/
def Store.size (σ : Store α) : Nat := σ.length

/-- Allocate a fresh array holding `l`; returns the new store and the
fresh reference. -/
def Store.allocNew (σ : Store α) (l : List α) : Store α × Nat :=
  (σ ++ [l], σ.length)

/-- Overwrite the contents at reference `r` (in-place mutation). -/
def Store.write (σ : Store α) (r : Nat) (l : List α) : Store α :=
  σ.set r l

theorem Store.read_allocNew_lt (σ : Store α) (l : List α) (r : Nat)
    (h : r < σ.size) : (σ.allocNew l).1.read r = σ.read r := by
  simp only [Store.allocNew, Store.read]
  exact List.getD_append σ [l] [] r h

theorem Store.read_write_ne (σ : Store α) (l : List α) (r n : Nat)
    (h : r ≠ n) : (σ.write n l).read r = σ.read r := by
  simp [Store.write, Store.read, List.getD, List.getElem?_set_ne (fun hn => h hn.symm)]

theorem Store.size_allocNew (σ : Store α) (l : List α) :
    (σ.allocNew l).1.size = σ.size + 1 := by
  simp [Store.allocNew, Store.size]

/-! ## A stable sort

`Array.prototype.sort` (ECMAScript 2019 and later) is required to be stable
and, for a consistent comparator, to produce a sequence sorted by it. It is
modelled by a stable insertion sort parameterized by the Boolean relation
"comparator result is not positive". -/

/-- Insert `a` into `l` before the first element `b` with `le a b`. -/
def insertLe (le : α → α → Bool) (a : α) : List α → List α
  | [] => [a]
  | b :: l => if le a b then a :: b :: l else b :: insertLe le a l

/-- Stable insertion sort by a Boolean relation. -/
def sortLe (le : α → α → Bool) : List α → List α
  | [] => []
  | a :: l => insertLe le a (sortLe le l)

theorem insertLe_perm (le : α → α → Bool) (a : α) (l : List α) :
    List.Perm (insertLe le a l) (a :: l) := by
  induction l with
  | nil => simp [insertLe]
  | cons b l ih =>
      rw [insertLe]
      by_cases h : le a b = true
      · rw [if_pos h]
      · rw [if_neg h]
        exact (ih.cons b).trans (List.Perm.swap a b l)

theorem sortLe_perm (le : α → α → Bool) (l : List α) :
    List.Perm (sortLe le l) l := by
  induction l with
  | nil => simp [sortLe]
  | cons a l ih =>
      exact (insertLe_perm le a (sortLe le l)).trans (ih.cons a)

theorem insertLe_pairwise (le : α → α → Bool)
    (total : ∀ a b, le a b || le b a)
    (trans : ∀ a b c, le a b = true → le b c = true → le a c = true)
    (a : α) (l : List α) (hl : l.Pairwise (fun x y => le x y = true)) :
    (insertLe le a l).Pairwise (fun x y => le x y = true) := by
  induction l with
  | nil => simp [insertLe]
  | cons b l ih =>
      rw [List.pairwise_cons] at hl
      obtain ⟨hb, hl⟩ := hl
      rw [insertLe]
      by_cases h : le a b = true
      · rw [if_pos h]
        refine List.Pairwise.cons ?_ (List.Pairwise.cons hb hl)
        intro x hx
        rcases List.mem_cons.1 hx with rfl | hx
        · exact h
        · exact trans a b x h (hb x hx)
      · rw [if_neg h]
        have hba : le b a = true := by
          rcases Bool.or_eq_true_iff.1 (total a b) with hab | hba
          · exact absurd hab h
          · exact hba
        refine List.Pairwise.cons ?_ (ih hl)
        intro x hx
        have hx2 := (insertLe_perm le a l).mem_iff.1 hx
        rcases List.mem_cons.1 hx2 with rfl | hx2
        · exact hba
        · exact hb x hx2

theorem sortLe_pairwise (le : α → α → Bool)
    (total : ∀ a b, le a b || le b a)
    (trans : ∀ a b c, le a b = true → le b c = true → le a c = true)
    (l : List α) : (sortLe le l).Pairwise (fun x y => le x y = true) := by
  induction l with
  | nil => simp [sortLe]
  | cons a l ih => exact insertLe_pairwise le total trans a (sortLe le l) ih

/-! ## TicketList filtering and sorting (src/components/TicketList.tsx) -/

/-- JS `s.toLowerCase()` (ASCII-faithful; the claims use ASCII titles). -/
def jsToLower (s : String) : String := s.toLower

/-- Whether `pat` occurs at the start of `l`. -/
def leadsWith : List Char → List Char → Bool
  | _, [] => true
  | [], _ :: _ => false
  | c :: cs, p :: ps => c == p && leadsWith cs ps

/-- Whether `pat` occurs contiguously anywhere in `l`
(`String.prototype.includes`). -/
def containsSeg : List Char → List Char → Bool
  | l, pat =>
      leadsWith l pat ||
        (match l with
         | [] => false
         | _ :: cs => containsSeg cs pat)

/-- The three members of the `SortOption` union. -/
inductive SortOption where
  | priceAsc
  | priceDesc
  | titleAsc
deriving DecidableEq

/-- Subtraction of JS numbers, as used by the numeric comparators. -/
def jsNumSub : JSNum → JSNum → JSNum
  | .nan, _ => .nan
  | _, .nan => .nan
  | .fin a, .fin b => .fin (a - b)
  | .inf, .inf => .nan
  | .inf, _ => .inf
  | .ninf, .ninf => .nan
  | .ninf, _ => .ninf
  | .fin _, .inf => .ninf
  | .fin _, .ninf => .inf

/-- "the comparator returned a non-positive number": the orderings under
which a stable sort realizes the ECMAScript `Array.prototype.sort` contract.
A NaN comparator result leaves the engine free; this model treats it as
non-positive. -/
def jsNumNonPos : JSNum → Bool
  | .fin q => decide (q ≤ 0)
  | .ninf => true
  | .inf => false
  | .nan => true

/-- JS `String.prototype.localeCompare` modelled as code-point comparison
(adequate for the ASCII titles the repository uses). -/
def jsLocaleCompare (a b : String) : JSNum :=
  match compare a b with
  | .lt => .fin (-1)
  | .eq => .fin 0
  | .gt => .fin 1

/-- The `sortComparators` map (src/components/TicketList.tsx). -/
def sortComparators (opt : SortOption) (a b : Ticket) : JSNum :=
  match opt with
  | .priceAsc => jsNumSub a.price b.price
  | .priceDesc => jsNumSub b.price a.price
  | .titleAsc => jsLocaleCompare a.title b.title

/-- The search predicate:
`ticket.title.toLowerCase().includes(normalizedSearchTerm)`. -/
def ticketMatches (term : String) (t : Ticket) : Bool :=
  containsSeg (jsToLower t.title).toList term.toList

/-- The `filteredAndSortedTickets` memo body (src/components/TicketList.tsx
lines 32-45), over the array store: `filter` allocates a fresh array when
the term is non-empty (and otherwise aliases `tickets`), the spread
`[...filtered]` allocates a copy, and `.sort` mutates only that copy.
Returns the final store and the reference the component renders from. -/
def filteredAndSortedTickets (σ : Store Ticket) (ticketsRef : Nat)
    (searchTerm : String) (sort : SortOption) : Store Ticket × Nat :=
  let tickets := σ.read ticketsRef
  let normalizedSearchTerm := jsToLower searchTerm
  let p1 :=
    if normalizedSearchTerm ≠ "" then
      σ.allocNew (tickets.filter (ticketMatches normalizedSearchTerm))
    else
      (σ, ticketsRef)
  let p2 := p1.1.allocNew (p1.1.read p1.2)
  let σ3 := p2.1.write p2.2
    (sortLe (fun a b => jsNumNonPos (sortComparators sort a b)) (p2.1.read p2.2))
  (σ3, p2.2)

/-! ## CardList sorted rendering (CardListBase, unnamed source part) -/

/-- The sort key of a card item: `(x.price ?? 0)`. -/
def cardKey (it : CardItem) : ℚ := it.price.getD 0

/-- The CardList comparator `(a, b) => (a.price ?? 0) - (b.price ?? 0)`
turned into the "non-positive result" Boolean relation. -/
def cardLe (a b : CardItem) : Bool := decide (cardKey a - cardKey b ≤ 0)

/-- The `useMemo(() => items.slice().sort(...), [items])` body of
`CardListBase`: `slice()` allocates a copy and `.sort` mutates only the
copy. Returns the final store and the reference the component maps over. -/
def cardListSorted (σ : Store CardItem) (itemsRef : Nat) :
    Store CardItem × Nat :=
  let p1 := σ.allocNew (σ.read itemsRef)
  let σ2 := p1.1.write p1.2 (sortLe cardLe (p1.1.read p1.2))
  (σ2, p1.2)

/-! ## SearchBar and useDebounce (src/components/SearchBar.tsx)

The component is modelled as a discrete-event machine over the React
render/effect semantics: a render pass snapshots the React state, runs the
six `useEffect` bodies in hook order against that snapshot (each guarded by
its dependency array), applies the queued state updates, and re-renders
until the state is stable. `setTimeout` is the single cancellable timer the
debounce hook owns; `onChange` is modelled as an external log (its receiver
does not feed back into the props of the component). Times are milliseconds. -/

/-- The SearchBar props this model tracks (`value`, `onChange` presence,
`debounceMs`, `syncWithUrl`, `urlParam`). -/
structure SBConfig where
  valueProp : String
  hasOnChange : Bool
  debounceMs : Nat
  syncWithUrl : Bool
  urlParam : String
deriving DecidableEq

/-- The React `useState` state of one SearchBar instance (changes to these
trigger a re-render): `inputValue` and `isClient` from SearchBar,
`debouncedValue`, the `isFirstRender` flag and `hasChanged` from
`useDebounce`. -/
structure RState where
  inputValue : String
  isClient : Bool
  debouncedValue : String
  dbFirst : Bool
  hasChanged : Bool
deriving DecidableEq

/-- Full instance state: React state plus the `isFirstRender` ref of the
notify effect, the pending debounce timer (fire time and the captured
`value`), and the dependency arrays each guarded effect last ran with. -/
structure MState where
  r : RState
  notifyFirst : Bool
  timer : Option (Nat × String)
  dbDeps : Option (String × Nat × Bool)
  clientEffectRan : Bool
  valDeps : Option String
  urlInitDeps : Option (Bool × Bool × String)
deriving DecidableEq

/-- The query parameters of the address bar. -/
structure Url where
  params : List (String × String)
deriving DecidableEq

/-- JS `URLSearchParams.get`. -/
def Url.getParam (u : Url) (k : String) : Option String := u.params.lookup k

/-- JS `URLSearchParams.set`: replace in place if present, else append. -/
def Url.setParam (u : Url) (k v : String) : Url :=
  if (u.params.lookup k).isSome then
    ⟨u.params.map (fun p => if p.1 = k then (k, v) else p)⟩
  else ⟨u.params ++ [(k, v)]⟩

/-- JS `URLSearchParams.delete`. -/
def Url.delParam (u : Url) (k : String) : Url :=
  ⟨u.params.filter (fun p => !(p.1 == k))⟩

/-- One query-parameter write performed through `history.replaceState`. -/
inductive UrlWrite where
  | setW (k v : String)
  | delW (k : String)
deriving DecidableEq

/-- The world outside the component: the address bar, the log of
query-parameter writes, and the log of `onChange` invocations. -/
structure World where
  url : Url
  urlWrites : List UrlWrite
  calls : List String
deriving DecidableEq

/-- Effect 1 — the effect of `useDebounce` (deps `[value, delay, isFirstRender]`):
on its first run it only clears the first-render flag; on every later run
its cleanup cancels the previous timer and its body schedules a new one for
`now + delay`, capturing the `value` of that render. -/
def debounceEffect (cfg : SBConfig) (now : Nat) (snap : RState) (s : MState) :
    MState :=
  let deps := (snap.inputValue, cfg.debounceMs, snap.dbFirst)
  if s.dbDeps = some deps then s
  else
    let s := { s with timer := none, dbDeps := some deps }
    if snap.dbFirst then { s with r := { s.r with dbFirst := false } }
    else { s with timer := some (now + cfg.debounceMs, snap.inputValue) }

/-- Effect 2 — `setIsClient(true)` (deps `[]`, runs once). -/
def clientEffect (s : MState) : MState :=
  if s.clientEffectRan then s
  else { s with r := { s.r with isClient := true }, clientEffectRan := true }

/-- Effect 3 — `setInputValue(value)` when the `value` prop changes
(deps `[value]`). -/
def valuePropEffect (cfg : SBConfig) (s : MState) : MState :=
  if s.valDeps = some cfg.valueProp then s
  else { s with r := { s.r with inputValue := cfg.valueProp },
                valDeps := some cfg.valueProp }

/-- Effect 4 — seed the input from the URL
(deps `[isClient, syncWithUrl, urlParam]`). -/
def urlInitEffect (cfg : SBConfig) (snap : RState) (s : MState) (w : World) :
    MState :=
  let deps := (snap.isClient, cfg.syncWithUrl, cfg.urlParam)
  if s.urlInitDeps = some deps then s
  else
    let s := { s with urlInitDeps := some deps }
    if snap.isClient && cfg.syncWithUrl then
      let uv := (w.url.getParam cfg.urlParam).getD ""
      if uv ≠ "" ∧ uv ≠ snap.inputValue then
        { s with r := { s.r with inputValue := uv } }
      else s
    else s

/-- Effect 5 — notify the parent (deps `[debounced, onChange]`; `debounced`
is a freshly allocated object every render, so this effect runs on every
render): call `onChange(debounced.value)` unless this is the very first run
or `hasChanged` is still false. -/
def notifyEffect (cfg : SBConfig) (snap : RState) (s : MState) (w : World) :
    MState × World :=
  let w :=
    if cfg.hasOnChange && !s.notifyFirst && snap.hasChanged then
      { w with calls := w.calls ++ [snap.debouncedValue] }
    else w
  ({ s with notifyFirst := false }, w)

/-- Effect 6 — mirror the committed value into the query string (deps
`[isClient, debounced, syncWithUrl, urlParam]`; runs on every render for the
same reason as effect 5): set the parameter when the trimmed committed value
is non-empty, delete it otherwise. -/
def urlSyncEffect (cfg : SBConfig) (snap : RState) (w : World) : World :=
  if snap.isClient && cfg.syncWithUrl then
    if jsTrim snap.debouncedValue ≠ "" then
      { w with url := w.url.setParam cfg.urlParam snap.debouncedValue,
               urlWrites := w.urlWrites ++ [.setW cfg.urlParam snap.debouncedValue] }
    else
      { w with url := w.url.delParam cfg.urlParam,
               urlWrites := w.urlWrites ++ [.delW cfg.urlParam] }
  else w

/-- One committed render: snapshot the state, run the six effects in hook
order against the snapshot, accumulate their updates. -/
def renderPass (cfg : SBConfig) (now : Nat) (s : MState) (w : World) :
    MState × World :=
  let snap := s.r
  let s1 := debounceEffect cfg now snap s
  let s2 := clientEffect s1
  let s3 := valuePropEffect cfg s2
  let s4 := urlInitEffect cfg snap s3 w
  let p5 := notifyEffect cfg snap s4 w
  let w6 := urlSyncEffect cfg snap p5.2
  (p5.1, w6)

/-- Render, and re-render while effects keep changing the React state. -/
def stabilize : Nat → SBConfig → Nat → MState → World → MState × World
  | 0, _, _, s, w => (s, w)
  | fuel + 1, cfg, now, s, w =>
      let p := renderPass cfg now s w
      if p.1.r = s.r then p else stabilize fuel cfg now p.1 p.2

/-- The state a freshly mounted instance renders with. -/
def initState (cfg : SBConfig) : MState :=
  { r := { inputValue := cfg.valueProp, isClient := false,
           debouncedValue := cfg.valueProp, dbFirst := true,
           hasChanged := false }
    notifyFirst := true, timer := none, dbDeps := none,
    clientEffectRan := false, valDeps := none, urlInitDeps := none }

/-- Mount at time 0 over the given address bar. -/
def mountSB (cfg : SBConfig) (u0 : Url) : MState × World :=
  stabilize 8 cfg 0 (initState cfg) { url := u0, urlWrites := [], calls := [] }

/-- The pending timer fires: apply `setDebouncedValue(captured)` and
`setHasChanged(true)`; if neither changes the state React bails out of the
re-render. -/
def fireTimerAt (cfg : SBConfig) (now : Nat) (captured : String)
    (s : MState) (w : World) : MState × World :=
  let r2 := { s.r with debouncedValue := captured, hasChanged := true }
  if r2 = s.r then ({ s with timer := none }, w)
  else stabilize 8 cfg now { s with r := r2, timer := none } w

/-- A keystroke: `setInputValue(newValue)`; identical values bail out. -/
def keystrokeSB (cfg : SBConfig) (now : Nat) (v : String)
    (s : MState) (w : World) : MState × World :=
  if v = s.r.inputValue then (s, w)
  else stabilize 8 cfg now { s with r := { s.r with inputValue := v } } w

/-- Fire the pending timer if it is due at or before `cutoff` (a fire never
schedules another timer, so one check per event suffices). -/
def fireIfDue (cfg : SBConfig) (cutoff : Nat) (s : MState) (w : World) :
    MState × World :=
  match s.timer with
  | some (ft, captured) =>
      if ft ≤ cutoff then fireTimerAt cfg ft captured s w else (s, w)
  | none => (s, w)

/-- Let every remaining pending timer fire. -/
def drainTimers : Nat → SBConfig → MState → World → MState × World
  | 0, _, s, w => (s, w)
  | fuel + 1, cfg, s, w =>
      match s.timer with
      | some (ft, captured) =>
          let p := fireTimerAt cfg ft captured s w
          drainTimers fuel cfg p.1 p.2
      | none => (s, w)

/-- Deliver one timed keystroke: fire the timer if it comes due first, then
apply the keystroke. -/
def scenarioStep (cfg : SBConfig) (p : MState × World) (ev : Nat × String) :
    MState × World :=
  let pd := fireIfDue cfg ev.1 p.1 p.2
  keystrokeSB cfg ev.1 ev.2 pd.1 pd.2

/-- Mount at time 0, deliver the timed keystrokes in order (firing any
timer that comes due first), then run to quiescence; returns the observable
world: final address bar, write log, `onChange` log. -/
def runScenario (cfg : SBConfig) (u0 : Url) (events : List (Nat × String)) :
    World :=
  let p0 := mountSB cfg u0
  let pE := events.foldl (scenarioStep cfg) p0
  (drainTimers 4 cfg pE.1 pE.2).2

/-! ## Claim-side reference definitions

Each is written from the words of the spec sentence it formalizes, to be
compared with the definitions above that embed the source. -/

/-- From the claim: keep exactly the elements that are object records whose
`id` field is present and neither `null` nor `undefined`. -/
def keptBySpec (v : JSVal) : Bool :=
  match v with
  | .obj fields =>
      match fields.lookup "id" with
      | some .null => false
      | some .undefined => false
      | some _ => true
      | none => false
  | _ => false

/-- From the claim (C2 as stated): a finite `price_cents` divides by 100,
every other case yields 0. -/
def priceSpecOriginal (v : JSVal) : JSNum :=
  match v with
  | .num (.fin q) => .fin (q / 100)
  | _ => .fin 0

/-- C2 amended: any numeric `price_cents` other than NaN divides by 100
(so the infinities pass through), every other case yields 0. -/
def priceSpecAmended (v : JSVal) : JSNum :=
  match v with
  | .num (.fin q) => .fin (q / 100)
  | .num .inf => .inf
  | .num .ninf => .ninf
  | _ => .fin 0

/-- Whether `0 ≤ n` holds for a JS number (NaN and `-Infinity` are not non-negative). -/
def jsNumNonneg : JSNum → Bool
  | .fin q => decide (0 ≤ q)
  | .inf => true
  | .ninf => false
  | .nan => false

/-- The output invariant claimed for every produced Ticket (C5 as stated):
non-empty `id`, non-empty `title`, non-negative `price`, recognized
`currency`. -/
def TicketInvariantClaim (t : Ticket) : Prop :=
  t.id ≠ "" ∧ t.title ≠ "" ∧ jsNumNonneg t.price = true
    ∧ (t.currency = "USD" ∨ t.currency = "EUR" ∨ t.currency = "GBP")

/-! ## C1 -/

theorem ticketKeep_eq_keptBySpec (v : JSVal) : ticketKeep v = keptBySpec v := by
  cases v
  case obj fields =>
    simp only [ticketKeep, keptBySpec, jsTypeofIsObject, jsIsNull, jsHasProp, jsGetField]
    cases h : fields.lookup "id" with
    | none => simp
    | some w => cases w <;> simp [jsIsNull, jsIsUndefined]
  all_goals rfl

/-- C1: on any input array, `transformTickets` keeps exactly the elements
that are object records with a non-null, non-undefined `id` (silently
dropping the rest), preserves their relative order (the output is the
order-preserving filter-then-map of the input), and gives every kept
element the id `String(raw.id)`. -/
theorem transformTickets_drop_order_id (xs : List JSVal) :
    transformTickets (.arr xs) = (xs.filter keptBySpec).map rawToTicket
    ∧ ∀ x : JSVal, keptBySpec x = true →
        (rawToTicket x).id = jsString (jsGetField x "id") := by
  refine ⟨?_, fun x _ => rfl⟩
  show (xs.filter ticketKeep).map rawToTicket = _
  rw [List.filter_congr (fun x _ => ticketKeep_eq_keptBySpec x)]

/-- The worked example of the spec: four records, one with a null id. -/
def c1Input : List JSVal :=
  [.obj [("id", .num (.fin 1)), ("title", .str "A")],
   .obj [("id", .null), ("title", .str "B")],
   .obj [("id", .str "x")],
   .obj [("id", .num (.fin 3))]]

theorem transformTickets_drop_order_id_witness :
    transformTickets (.arr c1Input) = (c1Input.filter keptBySpec).map rawToTicket
    ∧ (rawToTicket (.obj [("id", .str "x")])).id
        = jsString (jsGetField (.obj [("id", .str "x")]) "id") :=
  ⟨(transformTickets_drop_order_id c1Input).1,
   (transformTickets_drop_order_id c1Input).2 _ (by decide)⟩

/-! ## C2 -/

/-- C2 counterexample: `price_cents = Infinity` is a number and not NaN, so
the code returns `Infinity / 100 = Infinity`, while the claim ("in every
other case the output price equals 0") demands 0. -/
theorem normalizePrice_infinity_not_zero :
    normalizePrice (.num .inf) = .inf
    ∧ priceSpecOriginal (.num .inf) = .fin 0
    ∧ normalizePrice (.num .inf) ≠ priceSpecOriginal (.num .inf) := by
  refine ⟨rfl, rfl, ?_⟩
  decide

/-- C2 amended: a finite `price_cents` yields `price_cents / 100`, an
infinite one passes through (±Infinity), and every non-number or NaN yields
0. -/
theorem normalizePrice_amended (v : JSVal) :
    normalizePrice v = priceSpecAmended v := by
  cases v
  case num n => cases n <;> rfl
  all_goals rfl

/-! ## C3 -/

/-- C3: `renderBlocks` yields exactly one output node per input block, in
the same positions: the output length equals the input length and the node
at every index is determined by the block at that index (no reordering,
filtering or deduplication). -/
theorem renderBlocks_length_and_order (bs : List Block) :
    (renderBlocks bs).length = bs.length
    ∧ ∀ i : Nat, (renderBlocks bs)[i]? = Option.map (fun b => renderBlock b i) bs[i]? :=
  ⟨List.length_mapIdx, fun _ => List.getElem?_mapIdx⟩

/-! ## C4 -/

/-- The block list of the renderBlocks test of the repository: two registered
tags and the unknown tag `"Wut"`. -/
def demoBlocks : List Block :=
  [{ type := "Hero", props := .hero "T" none },
   { type := "CardList", props := .cardList [] },
   { type := "Wut", props := .raw }]

/-- C4 counterexample: the tag `"toString"` has no registered renderer,
yet the property read `registry["toString"]` finds the truthy inherited
`Object.prototype.toString`, so `!Comp` is false, the code takes the
component branch, and no role="note" placeholder is produced for it. -/
theorem renderBlocks_proto_tag_no_placeholder :
    registry.lookup "toString" = none
    ∧ (renderBlocks [{ type := "toString", props := .raw }])[0]?
        = some (.protoComp ("toString" ++ "-" ++ toString 0) "toString" .raw)
    ∧ (RNode.protoComp ("toString" ++ "-" ++ toString 0) "toString" .raw
        ≠ .element ("unknown-" ++ toString 0) (some "note")
            ("Unknown block: " ++ "toString")) :=
  ⟨by decide, rfl, fun h => RNode.noConfusion h⟩

/-- C4 amended: a block whose tag has no registered renderer and does not
name a property inherited from `Object.prototype` produces (totally,
without any failure path) the diagnostic placeholder: a `div` with role
`"note"` and text `"Unknown block: <tag>"`, keyed by its index; and the
node rendered at every other index is untouched — it depends only on the
block at that index, so replacing the neighbours of the unknown block is
impossible for it to affect. For a tag that does name an inherited
`Object.prototype` member the lookup is truthy and no placeholder
appears. -/
theorem renderBlocks_unknown_tag (bs : List Block) (i : Nat) (b : Block)
    (hib : bs[i]? = some b) (hreg : registry.lookup b.type = none)
    (hproto : b.type ∉ objectProtoProps) :
    (renderBlocks bs)[i]?
      = some (.element ("unknown-" ++ toString i) (some "note")
          ("Unknown block: " ++ b.type))
    ∧ ∀ cs : List Block, (∀ j : Nat, j ≠ i → cs[j]? = bs[j]?) →
        ∀ j : Nat, j ≠ i → (renderBlocks cs)[j]? = (renderBlocks bs)[j]? := by
  constructor
  · rw [renderBlocks, List.getElem?_mapIdx, hib]
    simp [renderBlock, getComponentAndProps, hreg, hproto]
  · intro cs hcs j hj
    rw [renderBlocks, renderBlocks, List.getElem?_mapIdx, List.getElem?_mapIdx,
      hcs j hj]

theorem renderBlocks_unknown_tag_witness :
    (renderBlocks demoBlocks)[2]?
      = some (.element ("unknown-" ++ toString 2) (some "note")
          ("Unknown block: " ++ "Wut")) :=
  (renderBlocks_unknown_tag demoBlocks 2 { type := "Wut", props := .raw }
    rfl (by decide) (by decide)).1

/-! ## C5 -/

/-- The input refuting the claimed invariant: an empty-string id passes the
null/undefined test, and a negative `price_cents` divides to a negative
price. -/
def c5Input : JSVal :=
  .arr [.obj [("id", .str ""), ("price_cents", .num (.fin (-500)))]]

/-- C5 counterexample: the produced ticket has an empty `id` and a negative
`price`, refuting the claimed output invariant. -/
theorem transformTickets_invariant_fails :
    transformTickets c5Input
      = [{ id := "", title := "Untitled", price := .fin (-5), currency := "USD" }]
    ∧ ¬ TicketInvariantClaim
        { id := "", title := "Untitled", price := .fin (-5), currency := "USD" } := by
  constructor
  · have h : ((-500 : ℚ)) / 100 = -5 := by norm_num
    calc transformTickets c5Input
        = [{ id := "", title := "Untitled", price := .fin ((-500 : ℚ) / 100),
             currency := "USD" }] := rfl
      _ = _ := by rw [h]
  · exact fun hcl => hcl.1 rfl

theorem normalizeTitle_ne_empty (v : JSVal) : normalizeTitle v ≠ "" := by
  have hU : ("Untitled" : String) ≠ "" := by decide
  cases v
  case str s =>
    simp only [normalizeTitle]
    by_cases h : jsTrim s = ""
    · rw [if_pos h]; exact hU
    · rw [if_neg h]
      intro hs
      exact h (by rw [hs]; rfl)
  all_goals exact hU

theorem normalizeCurrency_mem (v : JSVal) :
    normalizeCurrency v = "USD" ∨ normalizeCurrency v = "EUR"
      ∨ normalizeCurrency v = "GBP" := by
  cases v
  case str s =>
    simp only [normalizeCurrency]
    by_cases h : s = "USD" ∨ s = "EUR" ∨ s = "GBP"
    · rw [if_pos h]; exact h
    · rw [if_neg h]; exact Or.inl rfl
  all_goals exact Or.inl rfl

theorem normalizePrice_ne_nan (v : JSVal) : normalizePrice v ≠ .nan := by
  cases v
  case num n => cases n <;> exact fun hc => JSNum.noConfusion hc
  all_goals exact fun hc => JSNum.noConfusion hc

/-- C5 amended: every produced ticket has a non-empty `title`, a `currency`
drawn from {USD, EUR, GBP}, and a non-NaN `price`; but its `id` is only
guaranteed to be the stringified raw id (it is empty when the raw id is the
empty string) and its `price` can be negative or infinite. -/
theorem transformTickets_invariant_amended (input : JSVal) (t : Ticket)
    (ht : t ∈ transformTickets input) :
    t.title ≠ "" ∧ (t.currency = "USD" ∨ t.currency = "EUR" ∨ t.currency = "GBP")
      ∧ t.price ≠ .nan := by
  cases input
  case arr elems =>
    simp only [transformTickets] at ht
    obtain ⟨x, _, rfl⟩ := List.mem_map.1 ht
    exact ⟨normalizeTitle_ne_empty _, normalizeCurrency_mem _, normalizePrice_ne_nan _⟩
  all_goals exact absurd ht (List.not_mem_nil t)

theorem transformTickets_invariant_amended_witness :
    ("A" : String) ≠ "" ∧ (("USD" : String) = "USD" ∨ ("USD" : String) = "EUR"
      ∨ ("USD" : String) = "GBP") ∧ JSNum.fin 0 ≠ JSNum.nan :=
  transformTickets_invariant_amended (.arr c1Input)
    { id := "1", title := "A", price := .fin 0, currency := "USD" } (by decide)

/-! ## Machine lemmas: no query-parameter writes when sync is disabled -/

theorem urlSyncEffect_sync_false (cfg : SBConfig) (snap : RState) (w : World)
    (h : cfg.syncWithUrl = false) : urlSyncEffect cfg snap w = w := by
  simp [urlSyncEffect, h]

theorem notifyEffect_urlWrites (cfg : SBConfig) (snap : RState) (s : MState)
    (w : World) : (notifyEffect cfg snap s w).2.urlWrites = w.urlWrites := by
  simp only [notifyEffect]
  split <;> rfl

theorem renderPass_urlWrites_sync_false (cfg : SBConfig) (now : Nat)
    (s : MState) (w : World) (h : cfg.syncWithUrl = false) :
    (renderPass cfg now s w).2.urlWrites = w.urlWrites := by
  simp only [renderPass]
  rw [urlSyncEffect_sync_false cfg _ _ h]
  exact notifyEffect_urlWrites cfg _ _ w

theorem stabilize_urlWrites_sync_false (fuel : Nat) (cfg : SBConfig)
    (now : Nat) (s : MState) (w : World) (h : cfg.syncWithUrl = false) :
    (stabilize fuel cfg now s w).2.urlWrites = w.urlWrites := by
  induction fuel generalizing s w with
  | zero => rfl
  | succ n ih =>
      simp only [stabilize]
      split
      · exact renderPass_urlWrites_sync_false cfg now s w h
      · rw [ih]
        exact renderPass_urlWrites_sync_false cfg now s w h

theorem fireTimerAt_urlWrites_sync_false (cfg : SBConfig) (now : Nat)
    (captured : String) (s : MState) (w : World) (h : cfg.syncWithUrl = false) :
    (fireTimerAt cfg now captured s w).2.urlWrites = w.urlWrites := by
  simp only [fireTimerAt]
  split
  · rfl
  · exact stabilize_urlWrites_sync_false 8 cfg now _ w h

theorem keystrokeSB_urlWrites_sync_false (cfg : SBConfig) (now : Nat)
    (v : String) (s : MState) (w : World) (h : cfg.syncWithUrl = false) :
    (keystrokeSB cfg now v s w).2.urlWrites = w.urlWrites := by
  simp only [keystrokeSB]
  split
  · rfl
  · exact stabilize_urlWrites_sync_false 8 cfg now _ w h

theorem fireIfDue_urlWrites_sync_false (cfg : SBConfig) (cutoff : Nat)
    (s : MState) (w : World) (h : cfg.syncWithUrl = false) :
    (fireIfDue cfg cutoff s w).2.urlWrites = w.urlWrites := by
  simp only [fireIfDue]
  split
  · split
    · exact fireTimerAt_urlWrites_sync_false cfg _ _ s w h
    · rfl
  · rfl

theorem scenarioStep_urlWrites_sync_false (cfg : SBConfig)
    (p : MState × World) (ev : Nat × String) (h : cfg.syncWithUrl = false) :
    (scenarioStep cfg p ev).2.urlWrites = p.2.urlWrites := by
  simp only [scenarioStep]
  rw [keystrokeSB_urlWrites_sync_false cfg _ _ _ _ h]
  exact fireIfDue_urlWrites_sync_false cfg _ _ _ h

theorem foldl_scenarioStep_urlWrites_sync_false (cfg : SBConfig)
    (evs : List (Nat × String)) (p : MState × World)
    (h : cfg.syncWithUrl = false) :
    (evs.foldl (scenarioStep cfg) p).2.urlWrites = p.2.urlWrites := by
  induction evs generalizing p with
  | nil => rfl
  | cons ev evs ih =>
      rw [List.foldl_cons, ih (scenarioStep cfg p ev)]
      exact scenarioStep_urlWrites_sync_false cfg p ev h

theorem drainTimers_urlWrites_sync_false (fuel : Nat) (cfg : SBConfig)
    (s : MState) (w : World) (h : cfg.syncWithUrl = false) :
    (drainTimers fuel cfg s w).2.urlWrites = w.urlWrites := by
  induction fuel generalizing s w with
  | zero => rfl
  | succ n ih =>
      simp only [drainTimers]
      split
      · rw [ih]
        exact fireTimerAt_urlWrites_sync_false cfg _ _ s w h
      · rfl

/-! ## Url lookup lemmas -/

theorem lookup_map_replace (l : List (String × String)) (k v : String)
    (h : (l.lookup k).isSome) :
    ((l.map (fun p => if p.1 = k then (k, v) else p)).lookup k) = some v := by
  induction l with
  | nil => simp [List.lookup] at h
  | cons p l ih =>
      obtain ⟨a, b⟩ := p
      rw [List.lookup] at h
      by_cases hp : a = k
      · subst hp
        have hmap : (((a, b) :: l).map (fun p => if p.1 = a then (a, v) else p))
            = (a, v) :: (l.map (fun p => if p.1 = a then (a, v) else p)) := by
          simp
        rw [hmap, List.lookup, beq_self_eq_true]
      · have hbk : (k == a) = false := by
          rw [beq_eq_false_iff_ne]
          exact fun hk => hp hk.symm
        rw [hbk] at h
        have hmap : (((a, b) :: l).map (fun p => if p.1 = k then (k, v) else p))
            = (a, b) :: (l.map (fun p => if p.1 = k then (k, v) else p)) := by
          simp [hp]
        rw [hmap, List.lookup, hbk]
        exact ih h

theorem lookup_append_single (l : List (String × String)) (k v : String)
    (h : l.lookup k = none) : ((l ++ [(k, v)]).lookup k) = some v := by
  induction l with
  | nil => simp [List.lookup]
  | cons p l ih =>
      obtain ⟨a, b⟩ := p
      rw [List.lookup] at h
      rw [List.cons_append, List.lookup]
      cases hbk : (k == a) with
      | true => rw [hbk] at h; exact Option.noConfusion h
      | false => rw [hbk] at h; exact ih h

theorem getParam_setParam (u : Url) (k v : String) :
    (u.setParam k v).getParam k = some v := by
  simp only [Url.setParam, Url.getParam]
  split
  case isTrue h => exact lookup_map_replace u.params k v h
  case isFalse h =>
    exact lookup_append_single u.params k v (Option.not_isSome_iff_eq_none.1 h)

theorem getParam_delParam (u : Url) (k : String) :
    (u.delParam k).getParam k = none := by
  simp only [Url.delParam, Url.getParam]
  induction u.params with
  | nil => rfl
  | cons p l ih =>
      by_cases hp : p.1 = k
      · simpa [List.filter, hp] using ih
      · have hbk : (p.1 == k) = false := by
          simp only [beq_eq_false_iff_ne, ne_eq]; exact hp
        have hkb : (k == p.1) = false := by
          simp only [beq_eq_false_iff_ne, ne_eq]
          exact fun hk => hp hk.symm
        simp only [List.filter, hbk, Bool.not_false, List.lookup, hkb]
        exact ih

/-! ## C6 and C7 — the debounce/notify defect

The hook `useDebounce` lists its own `isFirstRender` state in the dependency
array of its effect, so the flag flip re-runs the effect right after mount and schedules
a timer capturing the initial value; and the hook returns a freshly
allocated object every render, so the notify effect re-runs on every render
and, once `hasChanged` has latched to true, re-invokes the callback with the
stale committed value. The intent of the repository is the opposite: the
comment "Notify parent of debounced value changes (skip initial render)"
and the test "debounces rapid input changes ... Should only call onChange
once with final value". -/

/-- A SearchBar with a callback, the default 300ms debounce and URL sync
off — the configuration `TicketList` uses minus URL sync. -/
def sbPlainCfg : SBConfig :=
  { valueProp := "", hasOnChange := true, debounceMs := 300,
    syncWithUrl := false, urlParam := "search" }

/-- A SearchBar with URL sync enabled, as mounted by `TicketList`. -/
def sbSyncCfg : SBConfig :=
  { valueProp := "", hasOnChange := true, debounceMs := 300,
    syncWithUrl := true, urlParam := "search" }

/-- C6 evaluated at a failing input: keystrokes `"a"` at 400ms and `"ab"`
at 450ms (50ms apart, well under the 300ms delay) yield four callback
invocations — the mount-timer commit of the initial value at 300ms, two
stale re-notifications during the keystroke renders, and the genuine commit
of `"ab"` at 750ms — where the claim demands exactly one call, with
`"ab"`. -/
theorem searchBar_rapid_keystrokes_fire_four_times :
    (runScenario sbPlainCfg ⟨[]⟩ [(400, "a"), (450, "ab")]).calls
      = ["", "", "", "ab"]
    ∧ (["", "", "", "ab"] : List String).length ≠ 1 :=
  ⟨rfl, by decide⟩

/-- C7 evaluated at a failing input: mounting with a callback and the
default 300ms delay, with no keystroke at all, invokes the callback once
(with the initial value, when the mount-scheduled timer fires) — the claim
demands that it is never invoked. -/
theorem searchBar_mount_fires_callback :
    (runScenario sbPlainCfg ⟨[]⟩ []).calls = [""] := rfl

/-! ## C8 — URL synchronization -/

/-- C8 counterexample: with sync enabled, committing the non-empty
whitespace text `" "` (the callback log shows the commit happened) only
ever removes the parameter — `debounced.value.trim()` decides between set
and delete, so a non-empty but blank commit deletes instead of setting. -/
theorem urlSync_whitespace_commit_removes :
    (runScenario sbSyncCfg ⟨[]⟩ [(10, " ")]).calls = [" "]
    ∧ (runScenario sbSyncCfg ⟨[]⟩ [(10, " ")]).urlWrites
        = [.delW "search", .delW "search", .delW "search"]
    ∧ ((" " : String) ≠ "") :=
  ⟨rfl, rfl, by decide⟩

/-- C8 amended: when sync is enabled (on the client), a render with
committed text whose trim is non-empty leaves the parameter set to exactly
that text, and one whose trim is empty (including whitespace-only commits)
leaves the parameter removed; and with sync disabled no query-parameter
write ever occurs, for every initial address bar and keystroke sequence. -/
theorem urlSync_set_remove_amended :
    (∀ (cfg : SBConfig) (snap : RState) (w : World),
        cfg.syncWithUrl = true → snap.isClient = true →
        (urlSyncEffect cfg snap w).url.getParam cfg.urlParam
          = if jsTrim snap.debouncedValue ≠ "" then some snap.debouncedValue
            else none)
    ∧ (∀ (cfg : SBConfig) (u0 : Url) (evs : List (Nat × String)),
        cfg.syncWithUrl = false → (runScenario cfg u0 evs).urlWrites = []) := by
  constructor
  · intro cfg snap w hs hc
    rw [urlSyncEffect, hs, hc]
    by_cases ht : jsTrim snap.debouncedValue ≠ ""
    · rw [if_pos ht, if_pos ht]
      exact getParam_setParam w.url cfg.urlParam snap.debouncedValue
    · rw [if_neg ht, if_neg ht]
      exact getParam_delParam w.url cfg.urlParam
  · intro cfg u0 evs h
    show (drainTimers 4 cfg _ _).2.urlWrites = []
    rw [drainTimers_urlWrites_sync_false 4 cfg _ _ h,
      foldl_scenarioStep_urlWrites_sync_false cfg evs _ h]
    exact stabilize_urlWrites_sync_false 8 cfg 0 _ _ h

theorem urlSync_set_remove_amended_witness :
    ((urlSyncEffect sbSyncCfg
        { inputValue := "hi", isClient := true, debouncedValue := "hi",
          dbFirst := false, hasChanged := true }
        { url := ⟨[]⟩, urlWrites := [], calls := [] }).url.getParam "search"
      = if jsTrim "hi" ≠ "" then some "hi" else none)
    ∧ (runScenario sbPlainCfg ⟨[]⟩ [(10, "hi")]).urlWrites = [] :=
  ⟨urlSync_set_remove_amended.1 sbSyncCfg _ _ rfl rfl,
   urlSync_set_remove_amended.2 sbPlainCfg ⟨[]⟩ [(10, "hi")] rfl⟩

/-! ## C9 and C10 — frame and sortedness of the list components -/

theorem Store.read_write_self (σ : Store α) (n : Nat) (l : List α)
    (h : n < σ.size) : (σ.write n l).read n = l := by
  simp [Store.write, Store.read, List.getD, List.getElem?_set_self h]

theorem Store.read_allocNew_self (σ : Store α) (l : List α) :
    (σ.allocNew l).1.read (σ.allocNew l).2 = l := by
  simp only [Store.allocNew, Store.read]
  rw [List.getD_append_right _ _ _ _ (le_refl _)]
  simp

/-- The common shape of both list components: allocate a copy, sort the
copy in place; the original array reads back unchanged. -/
theorem Store.read_alloc_sort (σ : Store α) (l : List α) (g : List α → List α)
    (r : Nat) (h : r < σ.size) :
    ((σ.allocNew l).1.write (σ.allocNew l).2
        (g ((σ.allocNew l).1.read (σ.allocNew l).2))).read r = σ.read r := by
  have hne : r ≠ (σ.allocNew l).2 := Nat.ne_of_lt h
  rw [Store.read_write_ne _ _ _ _ hne]
  exact Store.read_allocNew_lt σ l r h

/-- C9: `TicketList` never mutates the `tickets` array it receives: for
every store, every valid reference, every search term and every sort
option, the contents of the input array (and their order) are unchanged after
the filter/copy/sort pipeline runs — sorting happens on the freshly spread
copy only. -/
theorem ticketList_input_unchanged (σ : Store Ticket) (r : Nat)
    (term : String) (sort : SortOption) (h : r < σ.size) :
    (filteredAndSortedTickets σ r term sort).1.read r = σ.read r := by
  simp only [filteredAndSortedTickets]
  by_cases ht : jsToLower term ≠ ""
  · rw [if_pos ht]
    have h1 : r < (σ.allocNew ((σ.read r).filter
        (ticketMatches (jsToLower term)))).1.size := by
      rw [Store.size_allocNew]
      omega
    rw [Store.read_alloc_sort _ _ _ r h1]
    exact Store.read_allocNew_lt σ _ r h
  · rw [if_neg ht]
    exact Store.read_alloc_sort σ _ _ r h

theorem ticketList_input_unchanged_witness :
    (filteredAndSortedTickets
        [[{ id := "1", title := "B", price := .fin 2, currency := "USD" },
          { id := "2", title := "A", price := .fin 1, currency := "USD" }]]
        0 "a" .priceAsc).1.read 0
      = Store.read
        [[{ id := "1", title := "B", price := .fin 2, currency := "USD" },
          { id := "2", title := "A", price := .fin 1, currency := "USD" }]] 0 :=
  ticketList_input_unchanged _ 0 "a" .priceAsc (by decide)

theorem cardLe_total (a b : CardItem) : cardLe a b || cardLe b a := by
  rcases le_total (cardKey a) (cardKey b) with hab | hba
  · have : cardLe a b = true := decide_eq_true (sub_nonpos.2 hab)
    rw [this, Bool.true_or]
  · have : cardLe b a = true := decide_eq_true (sub_nonpos.2 hba)
    rw [this, Bool.or_true]

theorem cardLe_trans (a b c : CardItem) (hab : cardLe a b = true)
    (hbc : cardLe b c = true) : cardLe a c = true :=
  decide_eq_true (sub_nonpos.2
    (le_trans (sub_nonpos.1 (of_decide_eq_true hab))
      (sub_nonpos.1 (of_decide_eq_true hbc))))

/-- C10: `CardList` renders its items sorted by ascending price (with an
absent price counting as 0): the list it maps over is a permutation of the
supplied items arranged in non-decreasing price order, while the supplied
array itself is left unmutated — the comparator runs on a `slice()` copy. -/
theorem cardList_sorted_ascending_input_unchanged (σ : Store CardItem)
    (r : Nat) (h : r < σ.size) :
    (cardListSorted σ r).1.read r = σ.read r
    ∧ List.Perm ((cardListSorted σ r).1.read (cardListSorted σ r).2) (σ.read r)
    ∧ ((cardListSorted σ r).1.read (cardListSorted σ r).2).Pairwise
        (fun a b => cardKey a ≤ cardKey b) := by
  have hsz : (σ.allocNew (σ.read r)).2 < (σ.allocNew (σ.read r)).1.size := by
    rw [Store.size_allocNew]
    show σ.size < σ.size + 1
    omega
  have hread : (cardListSorted σ r).1.read (cardListSorted σ r).2
      = sortLe cardLe (σ.read r) := by
    simp only [cardListSorted]
    rw [Store.read_write_self _ _ _ hsz, Store.read_allocNew_self]
  refine ⟨?_, ?_, ?_⟩
  · simp only [cardListSorted]
    exact Store.read_alloc_sort σ _ _ r h
  · rw [hread]
    exact sortLe_perm cardLe (σ.read r)
  · rw [hread]
    exact (sortLe_pairwise cardLe cardLe_total cardLe_trans (σ.read r)).imp
      (fun hxy => sub_nonpos.1 (of_decide_eq_true hxy))

theorem cardList_sorted_witness :
    (cardListSorted [[{ title := "a", price := some 2, href := none },
        { title := "b", price := none, href := none }]] 0).1.read 0
      = Store.read [[{ title := "a", price := some 2, href := none },
          { title := "b", price := none, href := none }]] 0
    ∧ List.Perm
        ((cardListSorted [[{ title := "a", price := some 2, href := none },
            { title := "b", price := none, href := none }]] 0).1.read
          (cardListSorted [[{ title := "a", price := some 2, href := none },
            { title := "b", price := none, href := none }]] 0).2)
        (Store.read [[{ title := "a", price := some 2, href := none },
          { title := "b", price := none, href := none }]] 0)
    ∧ ((cardListSorted [[{ title := "a", price := some 2, href := none },
        { title := "b", price := none, href := none }]] 0).1.read
          (cardListSorted [[{ title := "a", price := some 2, href := none },
            { title := "b", price := none, href := none }]] 0).2).Pairwise
        (fun a b => cardKey a ≤ cardKey b) :=
  cardList_sorted_ascending_input_unchanged
    [[{ title := "a", price := some 2, href := none },
      { title := "b", price := none, href := none }]] 0 (by decide)
